import Mathlib

/-
Verification of the LLM cost calculator engine (src/app.py).

The engine consists of:
  * `get_pricing_data`   — the static pricing table (app.py lines 21-47);
  * `convert_input_to_tokens` — the unit converter (lines 53-73);
  * `calculate_costs`    — the per-model cost calculator (lines 75-92);
  * `project_costs`      — the month-by-month projection loop (lines 94-138);
  * the `api_calls == 0` validation guard of `main` (lines 277-281),
    modelled here as `run_calculation`.

Numbers: Python ints are modelled as ℤ (ℕ where the UI guarantees
non-negativity, e.g. token counts entered with `min_value=0`), and Python
floats as ℚ; the decimal literals of the source (0.025, 1.3, …) are exact
rationals here.  Python's `int(x)` conversion truncates toward zero and is
modelled by `py_int`.
-/

namespace LLMCalc

/-- Python `int(x)` applied to a float/rational: truncation toward zero. -/
def py_int (q : ℚ) : ℤ := if q < 0 then -⌊-q⌋ else ⌊q⌋

lemma py_int_of_nonneg {q : ℚ} (h : 0 ≤ q) : py_int q = ⌊q⌋ := by
  simp [py_int, not_lt.mpr h]

lemma py_int_nonneg {q : ℚ} (h : 0 ≤ q) : 0 ≤ py_int q := by
  rw [py_int_of_nonneg h]
  exact Int.floor_nonneg.mpr h

/-- One row of the pricing table (app.py `get_pricing_data`, lines 21-47).
The `Per Call (USD)` and `Total (USD)` columns of the source frame are
presentation placeholders that `calculate_costs` overwrites before display;
the engine only ever reads the fields modelled here. -/
structure PricingEntry where
  provider : String
  model : String
  context : String
  input_rate_per_1k : ℚ
  output_rate_per_1k : ℚ
deriving DecidableEq

/-- The static pricing table of `get_pricing_data` (app.py lines 21-47). -/
def get_pricing_data : List PricingEntry :=
  [ { provider := "OpenAI", model := "GPT-4 Turbo", context := "128K/4K",
      input_rate_per_1k := 0.025, output_rate_per_1k := 0.025 },
    { provider := "Anthropic", model := "Claude 3 Opus", context := "200K/4K",
      input_rate_per_1k := 0.0525, output_rate_per_1k := 0.0525 },
    { provider := "Meta (Llama 3)", model := "Llama 3.1 405b", context := "128K/2K",
      input_rate_per_1k := 0.0013, output_rate_per_1k := 0.0013 },
    { provider := "Google Gemini", model := "Gemini 1.5 Flash", context := "128K",
      input_rate_per_1k := 0.0001, output_rate_per_1k := 0.0001 },
    { provider := "Bedrock", model := "Amazon Titan Text", context := "100K/4K",
      input_rate_per_1k := 0.1000, output_rate_per_1k := 0.1000 } ]

/-- Model of `convert_input_to_tokens` (app.py lines 53-73).  The input value comes
from a `st.number_input` with `min_value=0`, hence ℕ; the unit selector is a
string; `int(...)` is `py_int`. -/
def convert_input_to_tokens (input_value : ℕ) (calculate_by : String) : ℤ :=
  if calculate_by = "Tokens" then
    input_value
  else if calculate_by = "Words" then
    py_int ((input_value : ℚ) * 1.3)
  else if calculate_by = "Characters" then
    py_int ((input_value : ℚ) * 0.25)
  else
    input_value

/-- One output row of `calculate_costs`: the pricing entry together with the
two columns the function fills in (app.py lines 88-91). -/
structure CostRow where
  entry : PricingEntry
  per_call_usd : ℚ
  total_usd : ℚ
deriving DecidableEq

/-- The per-call cost formula shared by `calculate_costs` (app.py lines
89-90) and `project_costs` (lines 119-120):
`input_rate * input_tokens / 1000 + output_rate * output_tokens / 1000`. -/
def per_call_cost (e : PricingEntry) (input_tokens output_tokens : ℕ) : ℚ :=
  e.input_rate_per_1k * input_tokens / 1000 + e.output_rate_per_1k * output_tokens / 1000

/-- Model of `calculate_costs` (app.py lines 75-92): one row per pricing entry, in
table order; `Per Call (USD)` is the per-call formula and `Total (USD)` is
per-call times `api_calls`. -/
def calculate_costs (input_tokens output_tokens : ℕ) (api_calls : ℤ)
    (pricing : List PricingEntry) : List CostRow :=
  pricing.map fun e =>
    { entry := e,
      per_call_usd := per_call_cost e input_tokens output_tokens,
      total_usd := per_call_cost e input_tokens output_tokens * (api_calls : ℚ) }

/-- The Calculate-button handler of `main` (app.py lines 277-281): when
`api_calls == 0` it reports a validation error and never calls
`calculate_costs`; otherwise it returns the calculator's rows. -/
def run_calculation (input_tokens output_tokens : ℕ) (api_calls : ℤ)
    (pricing : List PricingEntry) : Except String (List CostRow) :=
  if api_calls = 0 then
    Except.error "Number of API calls must be greater than 0."
  else
    Except.ok (calculate_costs input_tokens output_tokens api_calls pricing)

/-- One row of the projection table built by `project_costs`
(app.py lines 129-135). -/
structure ProjectionRow where
  month : ℕ
  api_calls : ℤ
  total_tokens : ℕ
  total_cost : ℚ
  cumulative_cost : ℚ
deriving DecidableEq

/-- The aggregate monthly cost of `project_costs` (app.py lines 119-123):
the per-entry per-call cost times the current call count, summed over all
pricing entries. -/
def month_cost (pricing : List PricingEntry) (input_tokens output_tokens : ℕ)
    (current_api_calls : ℤ) : ℚ :=
  (pricing.map fun e =>
    per_call_cost e input_tokens output_tokens * (current_api_calls : ℚ)).sum

/-- The body of the `for month in range(1, months + 1)` loop of
`project_costs` (app.py lines 113-135), by recursion on the number of
remaining months.  `month` is the loop counter, `current_api_calls` and
`cumulative_cost` the two mutable loop variables. -/
def project_aux (pricing : List PricingEntry) (input_tokens output_tokens : ℕ)
    (growth_rate : ℚ) : ℕ → ℕ → ℤ → ℚ → List ProjectionRow
  | 0, _, _, _ => []
  | rem + 1, month, current_api_calls, cumulative_cost =>
      let current' : ℤ :=
        if 0 < growth_rate ∧ 1 < month then
          py_int ((current_api_calls : ℚ) * (1 + growth_rate))
        else current_api_calls
      let mc : ℚ := month_cost pricing input_tokens output_tokens current'
      { month := month, api_calls := current',
        total_tokens := input_tokens + output_tokens,
        total_cost := mc, cumulative_cost := cumulative_cost + mc } ::
        project_aux pricing input_tokens output_tokens growth_rate rem
          (month + 1) current' (cumulative_cost + mc)

/-- Model of `project_costs` (app.py lines 94-138): the loop starts at month 1 with
`cumulative_cost = 0.0` and `current_api_calls = initial_api_calls`. -/
def project_costs (pricing : List PricingEntry) (months : ℕ) (growth_rate : ℚ)
    (initial_api_calls : ℤ) (input_tokens output_tokens : ℕ) : List ProjectionRow :=
  project_aux pricing input_tokens output_tokens growth_rate months 1 initial_api_calls 0

/-- The call count after `i` applications of the loop's growth update
(`current = int(current * (1 + growth_rate))` when `growth_rate > 0`,
unchanged otherwise).  Used to state the closed-form characterisation of
`project_aux`. -/
def grow_step (growth_rate : ℚ) (current : ℤ) : ℤ :=
  if 0 < growth_rate then py_int ((current : ℚ) * (1 + growth_rate)) else current

def steps (growth_rate : ℚ) (initial : ℤ) : ℕ → ℤ
  | 0 => initial
  | i + 1 => grow_step growth_rate (steps growth_rate initial i)

/-! Supporting lemmas -/

lemma steps_zero (g : ℚ) (initial : ℤ) : steps g initial 0 = initial := rfl

lemma steps_succ (g : ℚ) (initial : ℤ) (n : ℕ) :
    steps g initial (n + 1) = grow_step g (steps g initial n) := rfl

lemma project_aux_length (pricing : List PricingEntry) (it ot : ℕ) (g : ℚ) :
    ∀ (rem month : ℕ) (cur : ℤ) (cum : ℚ),
      (project_aux pricing it ot g rem month cur cum).length = rem := by
  intro rem
  induction rem with
  | zero => intro month cur cum; rfl
  | succ n ih => intro month cur cum; simp [project_aux, ih]

lemma project_costs_length (pricing : List PricingEntry) (months : ℕ) (g : ℚ)
    (initial : ℤ) (it ot : ℕ) :
    (project_costs pricing months g initial it ot).length = months :=
  project_aux_length pricing it ot g months 1 initial 0

lemma grow_step_nonneg (g : ℚ) {c : ℤ} (h : 0 ≤ c) : 0 ≤ grow_step g c := by
  unfold grow_step
  by_cases hg : 0 < g
  · rw [if_pos hg]
    apply py_int_nonneg
    have h1 : (0 : ℚ) ≤ (c : ℚ) := by exact_mod_cast h
    have h2 : (0 : ℚ) ≤ 1 + g := by linarith
    exact mul_nonneg h1 h2
  · rwa [if_neg hg]

lemma steps_nonneg (g : ℚ) {initial : ℤ} (h : 0 ≤ initial) :
    ∀ i, 0 ≤ steps g initial i := by
  intro i
  induction i with
  | zero => exact h
  | succ n ih => exact grow_step_nonneg g ih

lemma grow_step_of_not_pos {g : ℚ} (hg : ¬ 0 < g) (c : ℤ) : grow_step g c = c := by
  simp [grow_step, hg]

lemma steps_const {g : ℚ} (hg : ¬ 0 < g) (initial : ℤ) :
    ∀ i, steps g initial i = initial := by
  intro i
  induction i with
  | zero => rfl
  | succ n ih => rw [steps_succ, ih, grow_step_of_not_pos hg]

lemma steps_grow_shift (g : ℚ) (initial : ℤ) :
    ∀ n, steps g (grow_step g initial) n = steps g initial (n + 1)
  | 0 => rfl
  | n + 1 => congrArg (grow_step g) (steps_grow_shift g initial n)

lemma loop_update_eq_grow_step {g : ℚ} {month : ℕ} (hm : 1 < month) (cur : ℤ) :
    (if 0 < g ∧ 1 < month then py_int ((cur : ℚ) * (1 + g)) else cur) =
      grow_step g cur := by
  by_cases hg : 0 < g <;> simp [grow_step, hg, hm]

/-- Closed-form characterisation of the loop body for start months ≥ 2: on
the remaining horizon every month applies the growth update (when the rate
is positive), the cost is the monthly aggregate at the updated call count,
and the cumulative cost extends the accumulator by the running sum. -/
lemma project_aux_getElem (pricing : List PricingEntry) (it ot : ℕ) (g : ℚ) :
    ∀ (i rem month : ℕ) (cur : ℤ) (cum : ℚ), 2 ≤ month → i < rem →
      (project_aux pricing it ot g rem month cur cum)[i]? =
        some { month := month + i,
               api_calls := steps g cur (i + 1),
               total_tokens := it + ot,
               total_cost := month_cost pricing it ot (steps g cur (i + 1)),
               cumulative_cost := cum + ∑ j ∈ Finset.range (i + 1),
                 month_cost pricing it ot (steps g cur (j + 1)) } := by
  intro i
  induction i with
  | zero =>
    intro rem month cur cum hm hi
    cases rem with
    | zero => omega
    | succ n =>
      have h1 : 1 < month := by omega
      have hs1 : month_cost pricing it ot (steps g cur (0 + 1)) =
          month_cost pricing it ot (grow_step g cur) := rfl
      have hs1' : month_cost pricing it ot (steps g cur 1) =
          month_cost pricing it ot (grow_step g cur) := rfl
      have hs2 : steps g cur (0 + 1) = grow_step g cur := rfl
      have hs2' : steps g cur 1 = grow_step g cur := rfl
      simp only [project_aux, loop_update_eq_grow_step h1,
        List.getElem?_cons_zero, zero_add, Finset.sum_range_one, hs1, hs1',
        hs2, hs2', Nat.add_zero, Option.some.injEq]
  | succ i ih =>
    intro rem month cur cum hm hi
    cases rem with
    | zero => omega
    | succ n =>
      have h1 : 1 < month := by omega
      have hstep : (project_aux pricing it ot g (n + 1) month cur cum)[i + 1]? =
          (project_aux pricing it ot g n (month + 1) (grow_step g cur)
            (cum + month_cost pricing it ot (grow_step g cur)))[i]? := by
        simp only [project_aux, loop_update_eq_grow_step h1,
          List.getElem?_cons_succ]
      rw [hstep, ih n (month + 1) (grow_step g cur)
        (cum + month_cost pricing it ot (grow_step g cur)) (by omega) (by omega)]
      have hshift : ∀ k, steps g (grow_step g cur) k = steps g cur (k + 1) :=
        steps_grow_shift g cur
      have hsum : cum + month_cost pricing it ot (grow_step g cur) +
            ∑ j ∈ Finset.range (i + 1),
              month_cost pricing it ot (steps g cur (j + 1 + 1)) =
          cum + ∑ j ∈ Finset.range (i + 1 + 1),
              month_cost pricing it ot (steps g cur (j + 1)) := by
        rw [Finset.sum_range_succ' (fun j => month_cost pricing it ot
          (steps g cur (j + 1))) (i + 1)]
        have hg1 : month_cost pricing it ot (steps g cur (0 + 1)) =
            month_cost pricing it ot (grow_step g cur) := rfl
        have hg1' : month_cost pricing it ot (steps g cur 1) =
            month_cost pricing it ot (grow_step g cur) := rfl
        simp only [hg1, hg1']
        ring
      have hmonth : month + 1 + i = month + (i + 1) := by omega
      simp only [hshift]
      rw [hsum, hmonth]

/-- Closed-form characterisation of `project_costs`: the row at 0-based
index `i` is month `i + 1`, its call count is `steps g initial i` (month 1
never grows), its cost is the monthly aggregate at that call count, and its
cumulative cost is the running sum of the monthly aggregates. -/
lemma project_costs_getElem (pricing : List PricingEntry) (months : ℕ) (g : ℚ)
    (initial : ℤ) (it ot : ℕ) :
    ∀ i < months,
      (project_costs pricing months g initial it ot)[i]? =
        some { month := i + 1,
               api_calls := steps g initial i,
               total_tokens := it + ot,
               total_cost := month_cost pricing it ot (steps g initial i),
               cumulative_cost := ∑ j ∈ Finset.range (i + 1),
                 month_cost pricing it ot (steps g initial j) } := by
  intro i hi
  cases months with
  | zero => omega
  | succ n =>
    have hupd : (if 0 < g ∧ 1 < 1 then py_int ((initial : ℚ) * (1 + g))
        else initial) = initial := by simp
    cases i with
    | zero =>
      simp only [project_costs, project_aux, hupd, List.getElem?_cons_zero,
        Finset.sum_range_one, steps_zero, zero_add, Option.some.injEq]
    | succ i =>
      have hstep : (project_costs pricing (n + 1) g initial it ot)[i + 1]? =
          (project_aux pricing it ot g n 2 initial
            (0 + month_cost pricing it ot initial))[i]? := by
        simp only [project_costs, project_aux, hupd, List.getElem?_cons_succ]
      rw [hstep, project_aux_getElem pricing it ot g i n 2 initial
        (0 + month_cost pricing it ot initial) (le_refl 2) (by omega)]
      have hsum : 0 + month_cost pricing it ot initial +
            ∑ j ∈ Finset.range (i + 1),
              month_cost pricing it ot (steps g initial (j + 1)) =
          ∑ j ∈ Finset.range (i + 1 + 1),
              month_cost pricing it ot (steps g initial j) := by
        rw [Finset.sum_range_succ' (fun j => month_cost pricing it ot
          (steps g initial j)) (i + 1)]
        simp only [steps_zero]
        ring
      have hmonth : 2 + i = i + 1 + 1 := by omega
      simp only [hsum, hmonth]

/-- Restatement of the characterisation for `List.get`. -/
lemma project_costs_get (pricing : List PricingEntry) (months : ℕ) (g : ℚ)
    (initial : ℤ) (it ot : ℕ) (i : ℕ)
    (hi : i < (project_costs pricing months g initial it ot).length) :
    (project_costs pricing months g initial it ot).get ⟨i, hi⟩ =
      { month := i + 1,
        api_calls := steps g initial i,
        total_tokens := it + ot,
        total_cost := month_cost pricing it ot (steps g initial i),
        cumulative_cost := ∑ j ∈ Finset.range (i + 1),
          month_cost pricing it ot (steps g initial j) } := by
  have him : i < months := by
    rw [project_costs_length] at hi
    exact hi
  have h1 := project_costs_getElem pricing months g initial it ot i him
  have h2 : (project_costs pricing months g initial it ot)[i]? =
      some ((project_costs pricing months g initial it ot).get ⟨i, hi⟩) := by
    rw [List.get_eq_getElem, List.getElem?_eq_getElem hi]
  exact Option.some.inj (h2.symm.trans h1)

lemma per_call_cost_nonneg (e : PricingEntry) (it ot : ℕ)
    (hin : 0 ≤ e.input_rate_per_1k) (hout : 0 ≤ e.output_rate_per_1k) :
    0 ≤ per_call_cost e it ot := by
  unfold per_call_cost
  have h1 : (0 : ℚ) ≤ e.input_rate_per_1k * it / 1000 := by positivity
  have h2 : (0 : ℚ) ≤ e.output_rate_per_1k * ot / 1000 := by positivity
  linarith

lemma month_cost_nonneg (pricing : List PricingEntry) (it ot : ℕ) {c : ℤ}
    (hc : 0 ≤ c)
    (hr : ∀ e ∈ pricing, 0 ≤ e.input_rate_per_1k ∧ 0 ≤ e.output_rate_per_1k) :
    0 ≤ month_cost pricing it ot c := by
  unfold month_cost
  apply List.sum_nonneg
  intro x hx
  rw [List.mem_map] at hx
  obtain ⟨e, he, rfl⟩ := hx
  have hcq : (0 : ℚ) ≤ (c : ℚ) := by exact_mod_cast hc
  exact mul_nonneg (per_call_cost_nonneg e it ot (hr e he).1 (hr e he).2) hcq

/-- The monthly aggregate of the projection loop is exactly the sum of the
`Total (USD)` column that `calculate_costs` would compute at the same call
count. -/
lemma month_cost_eq_calc_total_sum (pricing : List PricingEntry)
    (it ot : ℕ) (c : ℤ) :
    month_cost pricing it ot c =
      ((calculate_costs it ot c pricing).map CostRow.total_usd).sum := by
  simp only [month_cost, calculate_costs, List.map_map]
  rfl

lemma calculate_costs_length (it ot : ℕ) (c : ℤ) (pricing : List PricingEntry) :
    (calculate_costs it ot c pricing).length = pricing.length := by
  simp [calculate_costs]

lemma calculate_costs_get (it ot : ℕ) (c : ℤ) (pricing : List PricingEntry)
    (i : ℕ) (hi : i < (calculate_costs it ot c pricing).length)
    (hp : i < pricing.length) :
    (calculate_costs it ot c pricing).get ⟨i, hi⟩ =
      { entry := pricing.get ⟨i, hp⟩,
        per_call_usd := per_call_cost (pricing.get ⟨i, hp⟩) it ot,
        total_usd := per_call_cost (pricing.get ⟨i, hp⟩) it ot * (c : ℚ) } := by
  simp [calculate_costs, List.get_eq_getElem]

/-- Evaluated fact about the static table, used to discharge rate
hypotheses at concrete inputs. -/
lemma get_pricing_data_rates_nonneg :
    ∀ e ∈ get_pricing_data, 0 ≤ e.input_rate_per_1k ∧ 0 ≤ e.output_rate_per_1k := by
  simp only [get_pricing_data, List.mem_cons, List.not_mem_nil, or_false]
  rintro e (rfl | rfl | rfl | rfl | rfl) <;> norm_num

lemma half_pos_rat : (0 : ℚ) < 1 / 2 := by norm_num

/-! Claim theorems -/

/-- C1: when `api_calls == 0` the calculation handler reports the
validation error before any calculation — it returns the user-facing
message and no result rows, so no zero-filled `CostRow` sequence is ever
produced. -/
theorem claim_c1_zero_calls_rejected (input_tokens output_tokens : ℕ)
    (pricing : List PricingEntry) :
    run_calculation input_tokens output_tokens 0 pricing =
      Except.error "Number of API calls must be greater than 0." := rfl

/-- C6: the unit converter is the identity on `Tokens`, multiplies by 1.3
and truncates (floor, as the value is non-negative) on `Words`, multiplies
by 0.25 and truncates on `Characters`, maps 0 to 0, and is a total pure
function. -/
theorem claim_c6_unit_conversion (v : ℕ) :
    convert_input_to_tokens v "Tokens" = v ∧
    convert_input_to_tokens v "Words" = ⌊(v : ℚ) * 1.3⌋ ∧
    convert_input_to_tokens v "Characters" = ⌊(v : ℚ) * 0.25⌋ ∧
    convert_input_to_tokens 0 "Tokens" = 0 ∧
    convert_input_to_tokens 0 "Words" = 0 ∧
    convert_input_to_tokens 0 "Characters" = 0 := by
  have hw : (0 : ℚ) ≤ (v : ℚ) * 1.3 := by positivity
  have hc : (0 : ℚ) ≤ (v : ℚ) * 0.25 := by positivity
  refine ⟨?_, ?_, ?_, ?_, ?_, ?_⟩
  · simp [convert_input_to_tokens]
  · simp [convert_input_to_tokens, py_int_of_nonneg hw]
  · simp [convert_input_to_tokens, py_int_of_nonneg hc]
  · simp [convert_input_to_tokens]
  · simp [convert_input_to_tokens, py_int]
  · simp [convert_input_to_tokens, py_int]

/-- C9: an unrecognised unit selector falls through to the identity
default of `convert_input_to_tokens`; the function is total, so no failure
is ever raised. -/
theorem claim_c9_unknown_unit_identity (v : ℕ) (u : String)
    (h1 : u ≠ "Tokens") (h2 : u ≠ "Words") (h3 : u ≠ "Characters") :
    convert_input_to_tokens v u = v := by
  simp [convert_input_to_tokens, h1, h2, h3]

/-- Witness for C9 at the concrete selector `"Bytes"` and value 7. -/
theorem claim_c9_witness :
    ("Bytes" : String) ≠ "Tokens" ∧ ("Bytes" : String) ≠ "Words" ∧
    ("Bytes" : String) ≠ "Characters" ∧
    convert_input_to_tokens 7 "Bytes" = 7 :=
  ⟨by decide, by decide, by decide,
    claim_c9_unknown_unit_identity 7 "Bytes" (by decide) (by decide) (by decide)⟩

/-- C2: `calculate_costs` yields one row per pricing entry in table order;
each row's per-call cost is
`input_rate * input_tokens / 1000 + output_rate * output_tokens / 1000`
and its total is exactly per-call cost times `api_calls`. -/
theorem claim_c2_cost_rows (pricing : List PricingEntry)
    (input_tokens output_tokens : ℕ) (api_calls : ℤ) (hcalls : 0 ≤ api_calls)
    (i : ℕ)
    (hi : i < (calculate_costs input_tokens output_tokens api_calls pricing).length)
    (hp : i < pricing.length) :
    (calculate_costs input_tokens output_tokens api_calls pricing).length =
        pricing.length ∧
    ((calculate_costs input_tokens output_tokens api_calls pricing).get
        ⟨i, hi⟩).entry = pricing.get ⟨i, hp⟩ ∧
    ((calculate_costs input_tokens output_tokens api_calls pricing).get
        ⟨i, hi⟩).per_call_usd =
      (pricing.get ⟨i, hp⟩).input_rate_per_1k * input_tokens / 1000 +
        (pricing.get ⟨i, hp⟩).output_rate_per_1k * output_tokens / 1000 ∧
    ((calculate_costs input_tokens output_tokens api_calls pricing).get
        ⟨i, hi⟩).total_usd =
      ((calculate_costs input_tokens output_tokens api_calls pricing).get
        ⟨i, hi⟩).per_call_usd * (api_calls : ℚ) := by
  rw [calculate_costs_get input_tokens output_tokens api_calls pricing i hi hp]
  exact ⟨calculate_costs_length input_tokens output_tokens api_calls pricing,
    rfl, rfl, rfl⟩

/-- Witness for C2 on the spec's concrete scenario (1000 input tokens, 500
output tokens, 100 calls, the static table, row 2). -/
theorem claim_c2_witness :
    (0 : ℤ) ≤ 100 ∧
    (calculate_costs 1000 500 100 get_pricing_data).length =
      get_pricing_data.length :=
  ⟨by decide,
   (claim_c2_cost_rows get_pricing_data 1000 500 100 (by decide) 2
     (by simp [calculate_costs_length, get_pricing_data])
     (by simp [get_pricing_data])).1⟩

/-- C5: each projection row's monthly total is the sum over all pricing
entries of the `Total (USD)` the cost calculator produces at that month's
call count — the projection engine iterates the calculator's aggregate
logic. -/
theorem claim_c5_projection_refines_calculator (pricing : List PricingEntry)
    (input_tokens output_tokens months : ℕ) (growth_rate : ℚ)
    (initial_api_calls : ℤ) (i : ℕ)
    (hi : i < (project_costs pricing months growth_rate initial_api_calls
      input_tokens output_tokens).length) :
    ((project_costs pricing months growth_rate initial_api_calls
        input_tokens output_tokens).get ⟨i, hi⟩).total_cost =
      ((calculate_costs input_tokens output_tokens
          ((project_costs pricing months growth_rate initial_api_calls
            input_tokens output_tokens).get ⟨i, hi⟩).api_calls pricing).map
        CostRow.total_usd).sum := by
  rw [project_costs_get]
  exact month_cost_eq_calc_total_sum pricing input_tokens output_tokens _

/-- Witness for C5 at a concrete projection (3 months, growth 1/2, 10
initial calls), month 1. -/
theorem claim_c5_witness :
    0 < (project_costs get_pricing_data 3 (1 / 2) 10 1000 500).length ∧
    ((project_costs get_pricing_data 3 (1 / 2) 10 1000 500).get
        ⟨0, by simp [project_costs_length]⟩).total_cost =
      ((calculate_costs 1000 500
          ((project_costs get_pricing_data 3 (1 / 2) 10 1000 500).get
            ⟨0, by simp [project_costs_length]⟩).api_calls get_pricing_data).map
        CostRow.total_usd).sum :=
  ⟨by simp [project_costs_length],
   claim_c5_projection_refines_calculator get_pricing_data 1000 500 3 (1 / 2) 10 0
     (by simp [project_costs_length])⟩

/-- C8: a projection over a positive number of months has exactly `months`
rows, the row at 0-based index `i` is month `i + 1` (so the month fields
are 1..months in order), and every row's `total_tokens` is the constant
`input_tokens + output_tokens`. -/
theorem claim_c8_projection_shape (pricing : List PricingEntry)
    (input_tokens output_tokens months : ℕ) (growth_rate : ℚ)
    (initial_api_calls : ℤ) (hm : 0 < months) (i : ℕ)
    (hi : i < (project_costs pricing months growth_rate initial_api_calls
      input_tokens output_tokens).length) :
    (project_costs pricing months growth_rate initial_api_calls
        input_tokens output_tokens).length = months ∧
    ((project_costs pricing months growth_rate initial_api_calls
        input_tokens output_tokens).get ⟨i, hi⟩).month = i + 1 ∧
    ((project_costs pricing months growth_rate initial_api_calls
        input_tokens output_tokens).get ⟨i, hi⟩).total_tokens =
      input_tokens + output_tokens := by
  rw [project_costs_get]
  exact ⟨project_costs_length pricing months growth_rate initial_api_calls
    input_tokens output_tokens, rfl, rfl⟩

/-- Witness for C8 at 12 months, growth 1/20, 100 initial calls, row 4. -/
theorem claim_c8_witness :
    0 < 12 ∧
    (project_costs get_pricing_data 12 (1 / 20) 100 1000 500).length = 12 :=
  ⟨by decide,
   (claim_c8_projection_shape get_pricing_data 1000 500 12 (1 / 20) 100
     (by decide) 4 (by simp [project_costs_length])).1⟩

/-- C10: whenever the growth rate is not strictly positive — zero or even a
negative value outside the documented range — the loop never applies the
growth update, so every row keeps `api_calls = initial_api_calls`; call
volume never shrinks month over month. -/
theorem claim_c10_nonpositive_growth_constant (pricing : List PricingEntry)
    (input_tokens output_tokens months : ℕ) (growth_rate : ℚ)
    (initial_api_calls : ℤ) (hg : growth_rate ≤ 0) (i : ℕ)
    (hi : i < (project_costs pricing months growth_rate initial_api_calls
      input_tokens output_tokens).length) :
    ((project_costs pricing months growth_rate initial_api_calls
        input_tokens output_tokens).get ⟨i, hi⟩).api_calls =
      initial_api_calls := by
  rw [project_costs_get]
  exact steps_const (not_lt.mpr hg) initial_api_calls i

/-- Negative growth rate used by the C10 witness. -/
lemma neg_tenth_nonpos : (-(1 / 10) : ℚ) ≤ 0 := by norm_num

/-- Witness for C10 at the negative rate −1/10, month 3 of a 4-month
projection. -/
theorem claim_c10_witness :
    (-(1 / 10) : ℚ) ≤ 0 ∧
    ((project_costs get_pricing_data 4 (-(1 / 10)) 100 1000 500).get
        ⟨2, by simp [project_costs_length]⟩).api_calls = 100 :=
  ⟨neg_tenth_nonpos,
   claim_c10_nonpositive_growth_constant get_pricing_data 1000 500 4
     (-(1 / 10)) 100 neg_tenth_nonpos 2 (by simp [project_costs_length])⟩

/-- C3: with a strictly positive growth rate, month 1's call count is the
initial call count (month 1 never grows), and each later month's count is
the floor (truncation, not rounding) of the previous month's count times
`1 + growth_rate`. -/
theorem claim_c3_positive_growth_floor (pricing : List PricingEntry)
    (input_tokens output_tokens months : ℕ) (growth_rate : ℚ)
    (initial_api_calls : ℤ) (hg : 0 < growth_rate)
    (hinit : 0 ≤ initial_api_calls) (i : ℕ)
    (hi : i < (project_costs pricing months growth_rate initial_api_calls
      input_tokens output_tokens).length)
    (hi1 : i + 1 < (project_costs pricing months growth_rate initial_api_calls
      input_tokens output_tokens).length)
    (h0 : 0 < (project_costs pricing months growth_rate initial_api_calls
      input_tokens output_tokens).length) :
    ((project_costs pricing months growth_rate initial_api_calls
        input_tokens output_tokens).get ⟨0, h0⟩).api_calls =
      initial_api_calls ∧
    ((project_costs pricing months growth_rate initial_api_calls
        input_tokens output_tokens).get ⟨i + 1, hi1⟩).api_calls =
      ⌊(((project_costs pricing months growth_rate initial_api_calls
          input_tokens output_tokens).get ⟨i, hi⟩).api_calls : ℚ) *
        (1 + growth_rate)⌋ := by
  simp only [project_costs_get]
  constructor
  · rfl
  · rw [steps_succ, grow_step, if_pos hg, py_int_of_nonneg]
    have h1 : (0 : ℚ) ≤ (steps growth_rate initial_api_calls i : ℚ) := by
      exact_mod_cast steps_nonneg growth_rate hinit i
    have h2 : (0 : ℚ) ≤ 1 + growth_rate := by linarith
    exact mul_nonneg h1 h2

/-- Witness for C3 at growth 1/2, 10 initial calls, 3 months: month 1 keeps
the initial count. -/
theorem claim_c3_witness :
    (0 : ℚ) < 1 / 2 ∧ (0 : ℤ) ≤ 10 ∧
    ((project_costs get_pricing_data 3 (1 / 2) 10 1000 500).get
        ⟨0, by simp [project_costs_length]⟩).api_calls = 10 :=
  ⟨half_pos_rat, by decide,
   (claim_c3_positive_growth_floor get_pricing_data 1000 500 3 (1 / 2) 10
     half_pos_rat (by decide) 0 (by simp [project_costs_length])
     (by simp [project_costs_length]) (by simp [project_costs_length])).1⟩

/-- C4: cumulative cost starts at the first month's total (i.e. extends the
initial 0), obeys
`cumulative_cost(month) = cumulative_cost(month-1) + total_cost(month)`,
and, with non-negative rates, tokens and call counts, is monotonically
non-decreasing across consecutive months. -/
theorem claim_c4_cumulative_running_sum (pricing : List PricingEntry)
    (input_tokens output_tokens months : ℕ) (growth_rate : ℚ)
    (initial_api_calls : ℤ)
    (hr : ∀ e ∈ pricing, 0 ≤ e.input_rate_per_1k ∧ 0 ≤ e.output_rate_per_1k)
    (hinit : 0 ≤ initial_api_calls) (i : ℕ)
    (hi : i < (project_costs pricing months growth_rate initial_api_calls
      input_tokens output_tokens).length)
    (hi1 : i + 1 < (project_costs pricing months growth_rate initial_api_calls
      input_tokens output_tokens).length)
    (h0 : 0 < (project_costs pricing months growth_rate initial_api_calls
      input_tokens output_tokens).length) :
    ((project_costs pricing months growth_rate initial_api_calls
        input_tokens output_tokens).get ⟨0, h0⟩).cumulative_cost =
      ((project_costs pricing months growth_rate initial_api_calls
        input_tokens output_tokens).get ⟨0, h0⟩).total_cost ∧
    ((project_costs pricing months growth_rate initial_api_calls
        input_tokens output_tokens).get ⟨i + 1, hi1⟩).cumulative_cost =
      ((project_costs pricing months growth_rate initial_api_calls
          input_tokens output_tokens).get ⟨i, hi⟩).cumulative_cost +
        ((project_costs pricing months growth_rate initial_api_calls
          input_tokens output_tokens).get ⟨i + 1, hi1⟩).total_cost ∧
    ((project_costs pricing months growth_rate initial_api_calls
        input_tokens output_tokens).get ⟨i, hi⟩).cumulative_cost ≤
      ((project_costs pricing months growth_rate initial_api_calls
        input_tokens output_tokens).get ⟨i + 1, hi1⟩).cumulative_cost := by
  simp only [project_costs_get]
  refine ⟨?_, ?_, ?_⟩
  · simp
  · rw [Finset.sum_range_succ]
  · have hmc : 0 ≤ month_cost pricing input_tokens output_tokens
        (steps growth_rate initial_api_calls (i + 1)) :=
      month_cost_nonneg pricing input_tokens output_tokens
        (steps_nonneg growth_rate hinit (i + 1)) hr
    conv_rhs => rw [Finset.sum_range_succ]
    linarith

/-- Witness for C4 on the static table at growth 1/2, 100 initial calls,
3 months, between months 2 and 3. -/
theorem claim_c4_witness :
    (∀ e ∈ get_pricing_data,
      0 ≤ e.input_rate_per_1k ∧ 0 ≤ e.output_rate_per_1k) ∧
    (0 : ℤ) ≤ 100 ∧
    ((project_costs get_pricing_data 3 (1 / 2) 100 1000 500).get
        ⟨2, by simp [project_costs_length]⟩).cumulative_cost =
      ((project_costs get_pricing_data 3 (1 / 2) 100 1000 500).get
          ⟨1, by simp [project_costs_length]⟩).cumulative_cost +
        ((project_costs get_pricing_data 3 (1 / 2) 100 1000 500).get
          ⟨2, by simp [project_costs_length]⟩).total_cost :=
  ⟨get_pricing_data_rates_nonneg, by decide,
   (claim_c4_cumulative_running_sum get_pricing_data 1000 500 3 (1 / 2) 100
     get_pricing_data_rates_nonneg (by decide) 1
     (by simp [project_costs_length]) (by simp [project_costs_length])
     (by simp [project_costs_length])).2.1⟩

/-- C7: with growth rate 0, every row keeps the initial call count, every
row has the same monthly total, and the last cumulative cost is `months`
times the first month's total. -/
theorem claim_c7_zero_growth (pricing : List PricingEntry)
    (input_tokens output_tokens months : ℕ) (initial_api_calls : ℤ)
    (hm : 0 < months) (i j : ℕ)
    (hi : i < (project_costs pricing months 0 initial_api_calls
      input_tokens output_tokens).length)
    (hj : j < (project_costs pricing months 0 initial_api_calls
      input_tokens output_tokens).length)
    (hlast : months - 1 < (project_costs pricing months 0 initial_api_calls
      input_tokens output_tokens).length)
    (h0 : 0 < (project_costs pricing months 0 initial_api_calls
      input_tokens output_tokens).length) :
    ((project_costs pricing months 0 initial_api_calls
        input_tokens output_tokens).get ⟨i, hi⟩).api_calls =
      initial_api_calls ∧
    ((project_costs pricing months 0 initial_api_calls
        input_tokens output_tokens).get ⟨i, hi⟩).total_cost =
      ((project_costs pricing months 0 initial_api_calls
        input_tokens output_tokens).get ⟨j, hj⟩).total_cost ∧
    ((project_costs pricing months 0 initial_api_calls
        input_tokens output_tokens).get ⟨months - 1, hlast⟩).cumulative_cost =
      (months : ℚ) * ((project_costs pricing months 0 initial_api_calls
        input_tokens output_tokens).get ⟨0, h0⟩).total_cost := by
  have hng : ¬ (0 : ℚ) < 0 := lt_irrefl 0
  simp only [project_costs_get]
  refine ⟨?_, ?_, ?_⟩
  · exact steps_const hng initial_api_calls i
  · rw [steps_const hng initial_api_calls i, steps_const hng initial_api_calls j]
  · have hsub : months - 1 + 1 = months := by omega
    simp only [steps_const hng]
    rw [Finset.sum_const, Finset.card_range, hsub, nsmul_eq_mul]

/-- Witness for C7 at 3 months, 50 initial calls: month 2 keeps the initial
count. -/
theorem claim_c7_witness :
    0 < 3 ∧
    ((project_costs get_pricing_data 3 0 50 1000 500).get
        ⟨1, by simp [project_costs_length]⟩).api_calls = 50 :=
  ⟨by decide,
   (claim_c7_zero_growth get_pricing_data 1000 500 3 50 (by decide) 1 2
     (by simp [project_costs_length]) (by simp [project_costs_length])
     (by simp [project_costs_length]) (by simp [project_costs_length])).1⟩

end LLMCalc
